import Mathlib

/-!
Verification of the script-to-video pipeline (src/app.py).

Strings of the Python program are modelled as `List Char`; each text
operation of the source (strip, split, regex substitutions) is embedded
as an executable Lean function on character lists.  External libraries
(gTTS, requests, PIL, moviepy, streamlit secrets) are modelled as opaque
oracles passed in explicitly; the control flow of the source is embedded
faithfully on top of them.
-/

set_option maxRecDepth 4000

/-- ASCII whitespace, matching the characters stripped by Python str.strip
and matched by the regex class backslash-s for ASCII input. -/
def isSpace (c : Char) : Bool :=
  c == ' ' || c == '\t' || c == '\n' || c == '\r' || c == '\x0b' || c == '\x0c'

/-- Sentence-final punctuation of the boundary regex in split_into_scenes
(src/app.py line 52). -/
def isSentEnd (c : Char) : Bool :=
  c == '.' || c == '!' || c == '?'

/-- Characters kept by the substitution at src/app.py line 65 (letters,
digits, whitespace). -/
def isAlnumC (c : Char) : Bool :=
  decide (('A' ≤ c ∧ c ≤ 'Z') ∨ ('a' ≤ c ∧ c ≤ 'z') ∨ ('0' ≤ c ∧ c ≤ '9'))

/-- Remove trailing whitespace (the right half of Python str.strip). -/
def stripRight : List Char → List Char
  | [] => []
  | c :: rest =>
    if (stripRight rest).isEmpty && isSpace c then [] else c :: stripRight rest

/-- Python str.strip: drop leading and trailing whitespace. -/
def pyStrip (s : List Char) : List Char :=
  stripRight (s.dropWhile isSpace)

/-- Python expression `"\n\n" in s` (src/app.py line 48). -/
def hasDoubleNewline : List Char → Bool
  | [] => false
  | [_] => false
  | c :: d :: rest => (c == '\n' && d == '\n') || hasDoubleNewline (d :: rest)

/-- Python `s.split("\n\n")`: split on each leftmost non-overlapping
occurrence of two consecutive newlines (src/app.py line 49). -/
def splitSep : List Char → List (List Char)
  | [] => [[]]
  | [c] => [[c]]
  | c :: d :: rest =>
    if c = '\n' ∧ d = '\n' then
      [] :: splitSep rest
    else
      match splitSep (d :: rest) with
      | [] => [[c]]
      | p :: ps => (c :: p) :: ps

/-- Scanner for `re.split(r'(?<=[.!?])\s+', s)` (src/app.py line 52).  The
flag records whether the scanner is inside the whitespace run of a
separator (whose leading sentence-final character has already closed a
part); such whitespace is consumed without being emitted.  Outside a
separator, a part ends after a sentence-final character followed by
whitespace. -/
def sentSplitAux : Bool → List Char → List (List Char)
  | _, [] => [[]]
  | inSep, c :: rest =>
    if inSep && isSpace c then sentSplitAux true rest
    else if isSentEnd c && (match rest with | d :: _ => isSpace d | [] => false) then
      [c] :: sentSplitAux true rest
    else
      match sentSplitAux false rest with
      | [] => [[c]]
      | p :: ps => (c :: p) :: ps

/-- Python `re.split(r'(?<=[.!?])\s+', s)` (src/app.py line 52): a part ends
after a sentence-final character that is followed by whitespace, and the
maximal whitespace run is the separator. -/
def pySentSplit (s : List Char) : List (List Char) :=
  sentSplitAux false s

/-- Python `" ".join(ws)`. -/
def joinSpace : List (List Char) → List Char
  | [] => []
  | [w] => w
  | w :: x :: xs => w ++ ' ' :: joinSpace (x :: xs)

/-- The scene-accumulation loop of src/app.py lines 54-61: append sentences
to the current chunk, flushing a chunk (joined with single spaces) whenever
it reaches three sentences, and flush the final partial chunk. -/
def chunkLoop : List (List Char) → List (List Char) → List (List Char)
  | chunk, [] => if chunk.isEmpty then [] else [joinSpace chunk]
  | chunk, s :: rest =>
    if 3 ≤ (chunk ++ [s]).length then
      joinSpace (chunk ++ [s]) :: chunkLoop [] rest
    else
      chunkLoop (chunk ++ [s]) rest

/-- Groups of three helper used to describe the behaviour of chunkLoop. -/
def chunks3 {α : Type} : List α → List (List α)
  | [] => []
  | [a] => [[a]]
  | [a, b] => [[a, b]]
  | a :: b :: c :: rest => [a, b, c] :: chunks3 rest

/-- The sentence list of src/app.py lines 52-53: split at sentence
boundaries, strip each part, drop empty parts. -/
def sentencesOf (t : List Char) : List (List Char) :=
  ((pySentSplit t).map pyStrip).filter (fun s => !s.isEmpty)

/-- The sentence-chunking fallback of src/app.py lines 52-62, applied to the
already-stripped script. -/
def sentence_scenes (t : List Char) : List (List Char) :=
  if (chunkLoop [] (sentencesOf t)).isEmpty then [t]
  else chunkLoop [] (sentencesOf t)

/-- split_into_scenes (src/app.py lines 45-62): strip the script; if the
stripped text contains a blank-line separator and the trimmed non-empty
parts are non-empty, return them; otherwise fall back to sentence chunks. -/
def split_into_scenes (script : List Char) : List (List Char) :=
  if hasDoubleNewline (pyStrip script) then
    if (((splitSep (pyStrip script)).map pyStrip).filter (fun p => !p.isEmpty)).isEmpty then
      sentence_scenes (pyStrip script)
    else
      ((splitSep (pyStrip script)).map pyStrip).filter (fun p => !p.isEmpty)
  else sentence_scenes (pyStrip script)

/-- Python `re.sub(r'\s+', ' ', s)` (src/app.py line 66): replace each
maximal whitespace run by a single space (a whitespace character followed
by more whitespace is dropped; the last of a run becomes a space). -/
def collapseSpaces : List Char → List Char
  | [] => []
  | [c] => if isSpace c then [' '] else [c]
  | c :: d :: rest =>
    if isSpace c && isSpace d then collapseSpaces (d :: rest)
    else if isSpace c then ' ' :: collapseSpaces (d :: rest)
    else c :: collapseSpaces (d :: rest)

/-- Python `s.split()` with no argument: split on whitespace runs, ignoring
leading and trailing whitespace, producing no empty words. -/
def pySplitWs : List Char → List (List Char)
  | [] => []
  | [c] => if isSpace c then [] else [[c]]
  | c :: d :: rest =>
    if isSpace c then pySplitWs (d :: rest)
    else if isSpace d then [c] :: pySplitWs (d :: rest)
    else
      match pySplitWs (d :: rest) with
      | [] => [[c]]
      | w :: ws => (c :: w) :: ws

/-- The word list computed by safe_keyword_text (src/app.py lines 65-67):
keep letters, digits and whitespace, collapse whitespace runs, strip, then
split on whitespace. -/
def cleanWords (text : List Char) : List (List Char) :=
  pySplitWs (pyStrip (collapseSpaces (text.filter (fun c => isAlnumC c || isSpace c))))

/-- safe_keyword_text (src/app.py lines 64-70): with fewer than two cleaned
words and a non-empty fallback return the fallback; otherwise the first six
cleaned words joined with spaces, or the fallback, or a fixed default. -/
def safe_keyword_text (text fallback : List Char) : List Char :=
  if (cleanWords text).length < 2 ∧ fallback ≠ [] then fallback
  else if cleanWords text ≠ [] then joinSpace ((cleanWords text).take 6)
  else if fallback ≠ [] then fallback
  else "abstract background".toList

/-- Number of whitespace-separated words of a string, in the sense of
Python str.split with no argument. -/
def wordCount (s : List Char) : Nat :=
  (pySplitWs s).length

/-- An audio asset with a known duration in seconds, modelling the
AudioFileClip obtained from the narration file (src/app.py line 118). -/
structure AudioFileClip where
  duration : ℚ
  deriving DecidableEq

/-- The pixel dimensions of a still-image file on disk. -/
structure ImageFileData where
  width : Nat
  height : Nat
  deriving DecidableEq

/-- A moviepy video clip as far as the pipeline observes it: frame
geometry, playback duration, attached audio. -/
structure VideoClip where
  width : Nat
  height : Nat
  duration : ℚ
  audioTrack : Option AudioFileClip
  deriving DecidableEq

/-- Model of the moviepy ImageClip constructor: a clip at the image size
with no duration and no audio yet. -/
def ImageClip_init (img : ImageFileData) : VideoClip :=
  ⟨img.width, img.height, 0, none⟩

/-- Model of moviepy set_duration. -/
def set_duration (c : VideoClip) (d : ℚ) : VideoClip :=
  ⟨c.width, c.height, d, c.audioTrack⟩

/-- Model of moviepy resize with a target height: scale preserving the
aspect ratio. -/
def resize_height (c : VideoClip) (h : Nat) : VideoClip :=
  ⟨c.width * h / c.height, h, c.duration, c.audioTrack⟩

/-- Model of moviepy on_color: composite the clip centered on a canvas of
the given size, so the resulting frame geometry is exactly that size. -/
def on_color (c : VideoClip) (size : Nat × Nat) : VideoClip :=
  ⟨size.1, size.2, c.duration, c.audioTrack⟩

/-- Model of moviepy set_audio. -/
def set_audio (c : VideoClip) (a : AudioFileClip) : VideoClip :=
  ⟨c.width, c.height, c.duration, some a⟩

/-- The scene-clip construction of src/app.py lines 127-129: duration set
to the narration duration clamped below at 0.1 seconds, image scaled to
height 720, letterboxed on a black 1280x720 canvas, narration attached. -/
def scene_clip (img : ImageFileData) (audio : AudioFileClip) : VideoClip :=
  set_audio
    (on_color (resize_height (set_duration (ImageClip_init img)
      (max audio.duration ((1 : ℚ)/10))) 720) (1280, 720))
    audio

/-- The placeholder image produced by PIL as far as the pipeline observes
it: canvas size, background colour, the drawn (wrapped and truncated)
caption and its position. -/
structure PILImage where
  width : Nat
  height : Nat
  background : Nat × Nat × Nat
  caption : List Char
  captionX : Int
  captionY : Int

/-- Python `"\n".join(ls)`. -/
def joinNewline : List (List Char) → List Char
  | [] => []
  | [w] => w
  | w :: x :: xs => w ++ '\n' :: joinNewline (x :: xs)

/-- make_placeholder_image (src/app.py lines 97-105).  The external
textwrap.wrap call (width 40) and the font measurement are opaque
parameters; the drawn caption is their joined output truncated to 400
characters, centered via Python floor division, on a canvas created at
exactly the requested size. -/
def make_placeholder_image (wrapFn : List Char → List (List Char))
    (tsFn : List Char → Nat × Nat) (text : List Char) (size : Nat × Nat) : PILImage :=
  ⟨size.1, size.2, (20, 20, 20), (joinNewline (wrapFn text)).take 400,
    Int.fdiv ((size.1 : Int) - ((tsFn ((joinNewline (wrapFn text)).take 400)).1 : Int)) 2,
    Int.fdiv ((size.2 : Int) - ((tsFn ((joinNewline (wrapFn text)).take 400)).2 : Int)) 2⟩

/-- The src dictionary of a Pexels photo: the three renditions the code
inspects, each possibly absent. -/
structure PhotoSrc where
  large : Option (List Char)
  medium : Option (List Char)
  original : Option (List Char)

/-- One photo of a Pexels search response. -/
structure Photo where
  src : PhotoSrc

/-- A video/audio codec pair passed to write_videofile. -/
structure Codec where
  video : String
  audio : String
  deriving DecidableEq

/-- The primary codec of src/app.py line 135: H.264 video, AAC audio. -/
def primaryCodec : Codec := ⟨"libx264", "aac"⟩

/-- The fallback codec of src/app.py line 138: MPEG-4 video, AAC audio. -/
def fallbackCodec : Codec := ⟨"mpeg4", "aac"⟩

/-- The external collaborators of the pipeline, modelled as oracles:
Streamlit secrets, gTTS synthesis (text to audio asset, may fail), the two
Pexels HTTP calls (search metadata and image download, may fail), the PIL
text-wrapping and text-measurement primitives, and write_videofile. -/
structure Oracles where
  secrets : List (String × List Char)
  tts : List Char → Except String AudioFileClip
  searchPhotos : List Char → Except String (List Photo)
  downloadImage : List Char → Except String ImageFileData
  wrapText : List Char → List (List Char)
  textSize : List Char → Nat × Nat
  writeFile : Codec → Except String Unit

/-- Python truthiness filter on an optional string: None and the empty
string are falsy. -/
def optTruthy (o : Option (List Char)) : Option (List Char) :=
  match o with
  | some s => if s.isEmpty then none else some s
  | none => none

/-- The rendition choice of src/app.py line 85: large, else medium, else
original, where absent and empty entries are skipped. -/
def pickSrc (p : PhotoSrc) : Option (List Char) :=
  match optTruthy p.large with
  | some s => some s
  | none =>
    match optTruthy p.medium with
    | some s => some s
    | none => optTruthy p.original

/-- fetch_image_from_pexels (src/app.py lines 72-95): with a missing or
empty API key return not-found with no network call; otherwise search
(one network call), and on a usable result download the image (a second
network call).  Every failure is absorbed into a not-found result.  The
returned pair is the fetched image (None meaning the Python False return)
and the number of network calls attempted. -/
def fetch_image_from_pexels (o : Oracles) (query : List Char) :
    Option ImageFileData × Nat :=
  if ((o.secrets.lookup "PEXELS_API_KEY").getD []).isEmpty then (none, 0)
  else
    match o.searchPhotos query with
    | Except.error _ => (none, 1)
    | Except.ok photos =>
      match photos with
      | [] => (none, 1)
      | p :: _ =>
        match pickSrc p.src with
        | none => (none, 1)
        | some url =>
          match o.downloadImage url with
          | Except.error _ => (none, 2)
          | Except.ok img => (some img, 2)

/-- What the per-scene loop of build_video records for one scene: whether
the placeholder path was used, how many network calls the image fetch
made, and the finished clip. -/
structure SceneRecord where
  usedPlaceholder : Bool
  netCalls : Nat
  clip : VideoClip
  deriving DecidableEq

/-- The per-scene body of build_video (src/app.py lines 120-130), after
narration succeeded: derive the query, try Pexels, fall back to a
placeholder rendered from the scene text truncated to 120 characters, and
build the scene clip. -/
def process_scene (o : Oracles) (topic : List Char) (scene : List Char)
    (audio : AudioFileClip) : SceneRecord :=
  match (fetch_image_from_pexels o (safe_keyword_text scene topic)).1 with
  | some img =>
    ⟨false, (fetch_image_from_pexels o (safe_keyword_text scene topic)).2,
      scene_clip img audio⟩
  | none =>
    ⟨true, (fetch_image_from_pexels o (safe_keyword_text scene topic)).2,
      scene_clip
        ⟨(make_placeholder_image o.wrapText o.textSize (scene.take 120) (1280, 720)).width,
         (make_placeholder_image o.wrapText o.textSize (scene.take 120) (1280, 720)).height⟩
        audio⟩

/-- The scene loop of build_video (src/app.py lines 113-131): narrate each
scene in order, aborting the whole run with the narration error if
synthesis fails; otherwise build each scene record.  The second component
is the trace of narration calls made, in order. -/
def build_loop (o : Oracles) (topic : List Char) :
    List (List Char) → Except String (List SceneRecord) × List (List Char)
  | [] => (Except.ok [], [])
  | scene :: rest =>
    match o.tts scene with
    | Except.error e => (Except.error e, [scene])
    | Except.ok audio =>
      ((build_loop o topic rest).1.map
          (fun recs => process_scene o topic scene audio :: recs),
        scene :: (build_loop o topic rest).2)

/-- The encoding step of src/app.py lines 133-139: try the primary codec;
on any failure retry once with the fallback codec, whose failure
propagates.  The second component is the list of codecs attempted, in
order. -/
def write_with_fallback (write : Codec → Except String Unit) :
    Except String Unit × List Codec :=
  match write primaryCodec with
  | Except.ok _ => (Except.ok (), [primaryCodec])
  | Except.error _ =>
    match write fallbackCodec with
    | Except.ok _ => (Except.ok (), [primaryCodec, fallbackCodec])
    | Except.error e => (Except.error e, [primaryCodec, fallbackCodec])

/-- build_video (src/app.py lines 107-139): run the scene loop, then
encode with codec fallback.  Returns the run result (the scene records of
a successful run, or the propagated error), the trace of narration calls,
and the list of codecs attempted. -/
def build_video (o : Oracles) (scenes : List (List Char)) (topic : List Char) :
    Except String (List SceneRecord) × List (List Char) × List Codec :=
  match (build_loop o topic scenes).1 with
  | Except.error e => (Except.error e, (build_loop o topic scenes).2, [])
  | Except.ok recs =>
    match (write_with_fallback o.writeFile).1 with
    | Except.ok _ =>
      (Except.ok recs, (build_loop o topic scenes).2, (write_with_fallback o.writeFile).2)
    | Except.error e =>
      (Except.error e, (build_loop o topic scenes).2, (write_with_fallback o.writeFile).2)

/-- A concrete oracle whose narration synthesis always fails with an error
message that mentions no scene index. -/
def oracleNetDown : Oracles :=
  ⟨[], fun _ => Except.error "network down", fun _ => Except.error "offline",
   fun _ => Except.error "offline", fun _ => [], fun _ => (0, 0), fun _ => Except.ok ()⟩

/-- A concrete oracle whose narration succeeds on the scene "a" and fails
on every other scene. -/
def oracleBoom : Oracles :=
  ⟨[], fun s => if s = ['a'] then Except.ok ⟨1⟩ else Except.error "boom",
   fun _ => Except.error "offline", fun _ => Except.error "offline",
   fun _ => [], fun _ => (0, 0), fun _ => Except.ok ()⟩

/-- A concrete oracle with no configured credential and always-successful
narration and encoding. -/
def oracleNoKey : Oracles :=
  ⟨[], fun _ => Except.ok ⟨1⟩, fun _ => Except.error "offline",
   fun _ => Except.error "offline", fun _ => [], fun _ => (0, 0), fun _ => Except.ok ()⟩

/-- A concrete encoder that succeeds for every codec. -/
def writeAllOk : Codec → Except String Unit := fun _ => Except.ok ()

/-- A concrete encoder that fails for the primary codec only. -/
def writeBadPrimary : Codec → Except String Unit :=
  fun c => if c = primaryCodec then Except.error "p" else Except.ok ()

/-- A concrete encoder that fails for every codec. -/
def writeBadBoth : Codec → Except String Unit := fun _ => Except.error "x"

/-! Helper lemmas about the embedded text operations. -/

theorem isEmpty_false_of_ne_nil {α : Type} {l : List α} (h : l ≠ []) :
    l.isEmpty = false := by
  cases l with
  | nil => exact absurd rfl h
  | cons a as => rfl

theorem stripRight_cons_cases (c : Char) (rest : List Char) :
    stripRight (c :: rest) = [] ∨ ∃ t, stripRight (c :: rest) = c :: t := by
  simp only [stripRight]
  split
  · exact Or.inl rfl
  · exact Or.inr ⟨stripRight rest, rfl⟩

theorem dropWhile_isSpace_head :
    ∀ (s : List Char) (c : Char) (rest : List Char),
      s.dropWhile isSpace = c :: rest → isSpace c = false
  | [], c, rest => by intro h; simp [List.dropWhile] at h
  | a :: as, c, rest => by
    intro h
    rw [List.dropWhile_cons] at h
    by_cases ha : isSpace a = true
    · rw [if_pos ha] at h
      exact dropWhile_isSpace_head as c rest h
    · rw [if_neg ha] at h
      injection h with h1 h2
      subst h1
      simpa using ha

theorem pyStrip_head_not_space (s : List Char) (c : Char) (rest : List Char)
    (h : pyStrip s = c :: rest) : isSpace c = false := by
  unfold pyStrip at h
  cases hd : s.dropWhile isSpace with
  | nil => rw [hd] at h; simp [stripRight] at h
  | cons a as =>
    rw [hd] at h
    rcases stripRight_cons_cases a as with h1 | ⟨t, h1⟩
    · rw [h1] at h; cases h
    · rw [h1] at h
      injection h with h2 h3
      rw [← h2]
      exact dropWhile_isSpace_head s a as hd

theorem pyStrip_cons_ne_nil (c : Char) (p : List Char) (hc : isSpace c = false) :
    pyStrip (c :: p) ≠ [] := by
  unfold pyStrip
  rw [List.dropWhile_cons, if_neg (by simp [hc])]
  simp only [stripRight]
  rw [if_neg (by simp [hc])]
  simp

theorem dropWhile_isSpace_all :
    ∀ s : List Char, s.all isSpace = true → s.dropWhile isSpace = []
  | [] => fun _ => rfl
  | a :: as => fun h => by
    simp only [List.all_cons, Bool.and_eq_true] at h
    rw [List.dropWhile_cons, if_pos h.1]
    exact dropWhile_isSpace_all as h.2

theorem pyStrip_all_space (s : List Char) (h : s.all isSpace = true) :
    pyStrip s = [] := by
  unfold pyStrip
  rw [dropWhile_isSpace_all s h]
  rfl

theorem splitSep_ne_nil : ∀ s : List Char, splitSep s ≠ []
  | [] => by simp [splitSep]
  | [c] => by simp [splitSep]
  | c :: d :: rest => by
    simp only [splitSep]
    split
    · simp
    · split <;> simp

theorem splitSep_cons_ne (c : Char) (rest : List Char) (hc : ¬ c = '\n') :
    ∃ p ps, splitSep (c :: rest) = (c :: p) :: ps := by
  cases rest with
  | nil => exact ⟨[], [], rfl⟩
  | cons d rest' =>
    have hcond : ¬(c = '\n' ∧ d = '\n') := fun hx => hc hx.1
    cases hsp : splitSep (d :: rest') with
    | nil => exact absurd hsp (splitSep_ne_nil _)
    | cons p ps =>
      refine ⟨p, ps, ?_⟩
      simp only [splitSep]
      rw [if_neg hcond, hsp]

theorem hasDoubleNewline_ne_nil (t : List Char) (h : hasDoubleNewline t = true) :
    t ≠ [] := by
  intro he
  subst he
  simp [hasDoubleNewline] at h

theorem chunks3_join {α : Type} : ∀ l : List α, (chunks3 l).flatten = l
  | [] => by simp [chunks3]
  | [a] => by simp [chunks3]
  | [a, b] => by simp [chunks3]
  | a :: b :: x :: rest => by simp [chunks3, chunks3_join rest]

theorem chunks3_ne_nil {α : Type} (a : α) (rest : List α) :
    chunks3 (a :: rest) ≠ [] := by
  cases rest with
  | nil => simp [chunks3]
  | cons b rest' =>
    cases rest' with
    | nil => simp [chunks3]
    | cons x rest'' => simp [chunks3]

theorem chunks3_props {α : Type} :
    ∀ (l : List α) (c : List α), c ∈ chunks3 l → c ≠ [] ∧ c.length ≤ 3
  | [], c => by intro h; simp [chunks3] at h
  | [a], c => by
    intro h
    simp [chunks3] at h
    subst h
    exact ⟨by simp, by simp⟩
  | [a, b], c => by
    intro h
    simp [chunks3] at h
    subst h
    exact ⟨by simp, by simp⟩
  | a :: b :: x :: rest, c => by
    intro h
    simp only [chunks3, List.mem_cons] at h
    rcases h with h | h
    · subst h
      exact ⟨by simp, by simp⟩
    · exact chunks3_props rest c h

theorem chunks3_dropLast {α : Type} :
    ∀ (l : List α) (c : List α), c ∈ (chunks3 l).dropLast → c.length = 3
  | [], c => by intro h; simp [chunks3] at h
  | [a], c => by intro h; simp [chunks3] at h
  | [a, b], c => by intro h; simp [chunks3] at h
  | a :: b :: x :: rest, c => by
    intro h
    rw [show chunks3 (a :: b :: x :: rest) = [a, b, x] :: chunks3 rest from rfl] at h
    cases hr : chunks3 rest with
    | nil => rw [hr] at h; simp at h
    | cons q qs =>
      rw [hr] at h
      rw [show ([a, b, x] :: q :: qs).dropLast = [a, b, x] :: (q :: qs).dropLast from rfl] at h
      rcases List.mem_cons.mp h with h | h
      · subst h; rfl
      · exact chunks3_dropLast rest c (by rw [hr]; exact h)

theorem chunkLoop_eq_chunks3 :
    ∀ (l acc : List (List Char)), acc.length ≤ 2 →
      chunkLoop acc l = (chunks3 (acc ++ l)).map joinSpace := by
  intro l
  induction l with
  | nil =>
    intro acc hacc
    rcases acc with _ | ⟨a, _ | ⟨b, _ | ⟨x, xs⟩⟩⟩
    · simp [chunkLoop, chunks3]
    · simp [chunkLoop, chunks3]
    · simp [chunkLoop, chunks3]
    · exfalso
      simp [List.length_cons] at hacc
  | cons s rest ih =>
    intro acc hacc
    simp only [chunkLoop]
    by_cases hlen : 3 ≤ (acc ++ [s]).length
    · rcases acc with _ | ⟨a, _ | ⟨b, _ | ⟨x, xs⟩⟩⟩
      · exfalso; simp at hlen
      · exfalso; simp at hlen
      · rw [if_pos hlen, ih [] (by simp)]
        simp [chunks3]
      · exfalso
        simp [List.length_cons] at hacc
    · rw [if_neg hlen, ih (acc ++ [s]) (by simp at hlen ⊢; omega)]
      simp

theorem pySplitWs_wf :
    ∀ s : List Char, ∀ w ∈ pySplitWs s, w ≠ [] ∧ ∀ ch ∈ w, isSpace ch = false
  | [] => by simp [pySplitWs]
  | [c] => by
    intro w hw
    by_cases hc : isSpace c = true
    · simp [pySplitWs, hc] at hw
    · simp [pySplitWs, hc] at hw
      subst hw
      refine ⟨by simp, ?_⟩
      intro ch hch
      simp at hch
      subst hch
      simpa using hc
  | c :: d :: rest => by
    intro w hw
    by_cases hc : isSpace c = true
    · rw [show pySplitWs (c :: d :: rest) = pySplitWs (d :: rest) by
        simp only [pySplitWs]; rw [if_pos hc]] at hw
      exact pySplitWs_wf (d :: rest) w hw
    · by_cases hd : isSpace d = true
      · rw [show pySplitWs (c :: d :: rest) = [c] :: pySplitWs (d :: rest) by
          simp only [pySplitWs]; rw [if_neg hc, if_pos hd]] at hw
        rcases List.mem_cons.mp hw with h | h
        · subst h
          refine ⟨by simp, ?_⟩
          intro ch hch
          simp at hch
          subst hch
          simpa using hc
        · exact pySplitWs_wf (d :: rest) w h
      · cases hps : pySplitWs (d :: rest) with
        | nil =>
          rw [show pySplitWs (c :: d :: rest) = [[c]] by
            simp only [pySplitWs]; rw [if_neg hc, if_neg hd, hps]] at hw
          simp at hw
          subst hw
          refine ⟨by simp, ?_⟩
          intro ch hch
          simp at hch
          subst hch
          simpa using hc
        | cons v ws =>
          rw [show pySplitWs (c :: d :: rest) = (c :: v) :: ws by
            simp only [pySplitWs]; rw [if_neg hc, if_neg hd, hps]] at hw
          rcases List.mem_cons.mp hw with h | h
          · subst h
            refine ⟨by simp, ?_⟩
            intro ch hch
            rcases List.mem_cons.mp hch with h2 | h2
            · subst h2; simpa using hc
            · exact (pySplitWs_wf (d :: rest) v (by rw [hps]; simp)).2 ch h2
          · exact pySplitWs_wf (d :: rest) w (by rw [hps]; simp [h])

theorem pySplitWs_space_cons (c : Char) (t : List Char) (hc : isSpace c = true) :
    pySplitWs (c :: t) = pySplitWs t := by
  cases t with
  | nil => simp [pySplitWs, hc]
  | cons d rest => simp only [pySplitWs]; rw [if_pos hc]

theorem pySplitWs_word_append :
    ∀ (w t : List Char), w ≠ [] → (∀ ch ∈ w, isSpace ch = false) →
      pySplitWs (w ++ ' ' :: t) = w :: pySplitWs t
  | [], t => by intro h _; exact absurd rfl h
  | [c], t => by
    intro _ hch
    have hc : isSpace c = false := hch c (by simp)
    show pySplitWs (c :: ' ' :: t) = [c] :: pySplitWs t
    rw [show pySplitWs (c :: ' ' :: t) = [c] :: pySplitWs (' ' :: t) by
      simp only [pySplitWs]; rw [if_neg (by simp [hc]), if_pos (by rfl)]]
    rw [pySplitWs_space_cons ' ' t rfl]
  | c :: c2 :: w', t => by
    intro _ hch
    have hc : isSpace c = false := hch c (by simp)
    have hc2 : isSpace c2 = false := hch c2 (by simp)
    show pySplitWs (c :: c2 :: (w' ++ ' ' :: t)) = (c :: c2 :: w') :: pySplitWs t
    have hih : pySplitWs (c2 :: (w' ++ ' ' :: t)) = (c2 :: w') :: pySplitWs t :=
      pySplitWs_word_append (c2 :: w') t (by simp)
        (fun ch hchm => hch ch (List.mem_cons_of_mem c hchm))
    simp only [pySplitWs]
    rw [if_neg (by simp [hc]), if_neg (by simp [hc2])]
    rw [show c2 :: (w' ++ ' ' :: t) = (c2 :: w') ++ ' ' :: t from rfl] at hih ⊢
    rw [hih]

theorem pySplitWs_word_only :
    ∀ w : List Char, w ≠ [] → (∀ ch ∈ w, isSpace ch = false) → pySplitWs w = [w]
  | [] => by intro h _; exact absurd rfl h
  | [c] => by
    intro _ hch
    simp [pySplitWs, hch c (by simp)]
  | c :: c2 :: w' => by
    intro _ hch
    have hc : isSpace c = false := hch c (by simp)
    have hc2 : isSpace c2 = false := hch c2 (by simp)
    have hih : pySplitWs (c2 :: w') = [c2 :: w'] :=
      pySplitWs_word_only (c2 :: w') (by simp)
        (fun ch hchm => hch ch (List.mem_cons_of_mem c hchm))
    simp only [pySplitWs]
    rw [if_neg (by simp [hc]), if_neg (by simp [hc2]), hih]

theorem pySplitWs_joinSpace :
    ∀ ws : List (List Char),
      (∀ w ∈ ws, w ≠ [] ∧ ∀ ch ∈ w, isSpace ch = false) →
      pySplitWs (joinSpace ws) = ws
  | [] => by intro _; simp [joinSpace, pySplitWs]
  | [w] => by
    intro h
    obtain ⟨hne, hch⟩ := h w (by simp)
    show pySplitWs w = [w]
    exact pySplitWs_word_only w hne hch
  | w :: x :: xs => by
    intro h
    obtain ⟨hne, hch⟩ := h w (by simp)
    show pySplitWs (w ++ ' ' :: joinSpace (x :: xs)) = w :: x :: xs
    rw [pySplitWs_word_append w (joinSpace (x :: xs)) hne hch]
    rw [pySplitWs_joinSpace (x :: xs) (fun v hv => h v (List.mem_cons_of_mem w hv))]

theorem build_loop_error (o : Oracles) (topic : List Char) :
    ∀ (pre : List (List Char)) (bad : List Char) (post : List (List Char)) (e : String),
      (∀ s ∈ pre, ∃ a, o.tts s = Except.ok a) →
      o.tts bad = Except.error e →
      build_loop o topic (pre ++ bad :: post) = (Except.error e, pre ++ [bad])
  | [], bad, post, e => by
    intro _ hbad
    simp only [List.nil_append, build_loop]
    rw [hbad]
  | s :: pre, bad, post, e => by
    intro hpre hbad
    obtain ⟨a, ha⟩ := hpre s (by simp)
    have hih := build_loop_error o topic pre bad post e
      (fun v hv => hpre v (by simp [hv])) hbad
    show build_loop o topic (s :: (pre ++ bad :: post)) = _
    simp only [build_loop]
    rw [ha, hih]
    simp [Except.map]

theorem fetch_no_key (o : Oracles)
    (hsec : o.secrets.lookup "PEXELS_API_KEY" = none) :
    ∀ q, fetch_image_from_pexels o q = (none, 0) := by
  intro q
  unfold fetch_image_from_pexels
  rw [hsec]
  rfl

theorem build_loop_placeholder (o : Oracles) (topic : List Char)
    (hfetch : ∀ q, fetch_image_from_pexels o q = (none, 0)) :
    ∀ scenes : List (List Char), (∀ s ∈ scenes, ∃ a, o.tts s = Except.ok a) →
      (build_loop o topic scenes).1.map
          (fun recs => recs.map (fun r => (r.usedPlaceholder, r.netCalls))) =
        Except.ok (scenes.map (fun _ => (true, 0)))
  | [] => by intro _; simp [build_loop, Except.map]
  | s :: rest => by
    intro h
    obtain ⟨a, ha⟩ := h s (by simp)
    have hih := build_loop_placeholder o topic hfetch rest
      (fun v hv => h v (by simp [hv]))
    simp only [build_loop]
    rw [ha]
    cases hb : (build_loop o topic rest).1 with
    | error e => rw [hb] at hih; simp [Except.map] at hih
    | ok recs =>
      rw [hb] at hih
      simp only [Except.map, List.map_cons] at hih ⊢
      injection hih with hih2
      rw [hih2]
      simp [process_scene, hfetch]

/-- C3 counterexample: a run whose narration provider fails on the very
first scene (index 0) aborts with the provider's own error message, which
contains no digit at all, hence does not name the index of the failing
scene.  The encoder is never attempted. -/
theorem c3_counterexample :
    (build_video oracleNetDown [['a'], ['b']] []).1 = Except.error "network down" ∧
    (build_video oracleNetDown [['a'], ['b']] []).2.2 = [] ∧
    "network down".data.all (fun c => !c.isDigit) = true :=
  ⟨rfl, rfl, by decide⟩

/-- C3 (amended): whenever narration synthesis fails for some scene, the
entire pipeline run aborts at that scene: the failing scene is narrated
exactly once (no retry), no later scene is narrated, no encoding is
attempted (so no output file is produced), and the reported error is the
narration provider's error propagated verbatim, without the failing scene
index being added to it. -/
theorem c3_abort_on_tts_error (o : Oracles) (topic : List Char)
    (pre : List (List Char)) (bad : List Char) (post : List (List Char)) (e : String)
    (hpre : ∀ s ∈ pre, ∃ a, o.tts s = Except.ok a)
    (hbad : o.tts bad = Except.error e) :
    (build_video o (pre ++ bad :: post) topic).1 = Except.error e ∧
    (build_video o (pre ++ bad :: post) topic).2.1 = pre ++ [bad] ∧
    (build_video o (pre ++ bad :: post) topic).2.2 = [] := by
  have hl := build_loop_error o topic pre bad post e hpre hbad
  unfold build_video
  rw [hl]
  exact ⟨rfl, rfl, rfl⟩

/-- C3 witness: with a provider succeeding on the first scene and failing
on the second with "boom", the two-scene run reports exactly "boom", the
narration trace stops at the failing scene, and no codec is attempted. -/
theorem c3_witness :
    (build_video oracleBoom [['a'], ['b']] []).1 = Except.error "boom" ∧
    (build_video oracleBoom [['a'], ['b']] []).2.1 = [['a'], ['b']] ∧
    (build_video oracleBoom [['a'], ['b']] []).2.2 = [] :=
  c3_abort_on_tts_error oracleBoom [] [['a']] ['b'] [] "boom"
    (fun s hs => ⟨⟨1⟩, by rw [List.mem_singleton] at hs; subst hs; rfl⟩) rfl

/-- C6: the Timeline Assembler encoder tries the primary codec (H.264
video via libx264, AAC audio) first; if it succeeds the fallback codec is
never attempted; on primary failure it retries exactly once with the
fallback codec (MPEG-4 video, AAC audio); if the fallback also fails the
run fails with the encoding error. -/
theorem c6_codec_fallback (write : Codec → Except String Unit) :
    (write primaryCodec = Except.ok () →
      write_with_fallback write = (Except.ok (), [primaryCodec])) ∧
    (∀ e, write primaryCodec = Except.error e → write fallbackCodec = Except.ok () →
      write_with_fallback write = (Except.ok (), [primaryCodec, fallbackCodec])) ∧
    (∀ e e', write primaryCodec = Except.error e →
      write fallbackCodec = Except.error e' →
      write_with_fallback write = (Except.error e', [primaryCodec, fallbackCodec])) := by
  refine ⟨?_, ?_, ?_⟩
  · intro h
    unfold write_with_fallback
    rw [h]
  · intro e h1 h2
    unfold write_with_fallback
    rw [h1, h2]
  · intro e e' h1 h2
    unfold write_with_fallback
    rw [h1, h2]

/-- C6 witness: the three encoder behaviours realized by concrete
encoders: success on primary attempts only the primary codec; failure on
primary with success on fallback attempts both and succeeds; failure on
both attempts both and reports the encoding error. -/
theorem c6_witness :
    write_with_fallback writeAllOk = (Except.ok (), [primaryCodec]) ∧
    write_with_fallback writeBadPrimary = (Except.ok (), [primaryCodec, fallbackCodec]) ∧
    write_with_fallback writeBadBoth = (Except.error "x", [primaryCodec, fallbackCodec]) :=
  ⟨(c6_codec_fallback writeAllOk).1 rfl,
   (c6_codec_fallback writeBadPrimary).2.1 "p" rfl rfl,
   (c6_codec_fallback writeBadBoth).2.2 "x" "x" rfl rfl⟩

/-- C8: with no Image Provider credential configured, every image fetch
returns not-found with zero network calls, and every scene of a run with
all-successful narration takes the placeholder path with zero network
calls (N scenes yield N placeholder records). -/
theorem c8_no_credential (o : Oracles) (q : List Char) (topic : List Char)
    (scenes : List (List Char))
    (hsec : o.secrets.lookup "PEXELS_API_KEY" = none)
    (htts : ∀ s ∈ scenes, ∃ a, o.tts s = Except.ok a) :
    fetch_image_from_pexels o q = (none, 0) ∧
    (build_loop o topic scenes).1.map
        (fun recs => recs.map (fun r => (r.usedPlaceholder, r.netCalls))) =
      Except.ok (scenes.map (fun _ => (true, 0))) :=
  ⟨fetch_no_key o hsec q,
   build_loop_placeholder o topic (fetch_no_key o hsec) scenes htts⟩

/-- C8 witness: a concrete two-scene run with an empty secrets store uses
the placeholder path for both scenes with zero network calls. -/
theorem c8_witness :
    fetch_image_from_pexels oracleNoKey ['x'] = (none, 0) ∧
    (build_loop oracleNoKey [] [['a'], ['b']]).1.map
        (fun recs => recs.map (fun r => (r.usedPlaceholder, r.netCalls))) =
      Except.ok [(true, 0), (true, 0)] :=
  c8_no_credential oracleNoKey ['x'] [] [['a'], ['b']] rfl
    (fun _ _ => ⟨⟨1⟩, rfl⟩)

theorem scene_clip_duration (img : ImageFileData) (a : AudioFileClip) :
    (scene_clip img a).duration = max a.duration ((1 : ℚ)/10) :=
  rfl

/-- C1 counterexample: for a 400x300 source image and a narration whose
duration 0.05 s is positive, the built clip's playback duration is 0.1 s,
not 0.05 s, because src/app.py line 127 clamps the duration from below at
0.1; so the clip duration does not equal the narration duration for every
positive duration. -/
theorem c1_counterexample :
    (0 : ℚ) < 1/20 ∧
    (scene_clip ⟨400, 300⟩ ⟨1/20⟩).duration = 1/10 ∧
    ((1 : ℚ)/10) ≠ 1/20 := by
  refine ⟨by norm_num, ?_, by norm_num⟩
  rw [scene_clip_duration]
  exact max_eq_right (by norm_num)

/-- C1 (amended): for every image asset and narration asset, the Scene
Clip Builder produces a clip whose playback duration equals the narration
duration exactly whenever that duration is at least 0.1 seconds (shorter
narrations are clamped to a 0.1-second clip), and whose canvas dimensions
are 1280x720 regardless of the source image dimensions. -/
theorem c1_clip_duration_and_canvas (img : ImageFileData) (a : AudioFileClip) :
    ((1 : ℚ)/10 ≤ a.duration → (scene_clip img a).duration = a.duration) ∧
    (a.duration < 1/10 → (scene_clip img a).duration = 1/10) ∧
    (scene_clip img a).width = 1280 ∧ (scene_clip img a).height = 720 := by
  refine ⟨?_, ?_, rfl, rfl⟩
  · intro h
    rw [scene_clip_duration]
    exact max_eq_left h
  · intro h
    rw [scene_clip_duration]
    exact max_eq_right h.le

/-- C1 witness: for the spec's 4.2-second narration the clip duration is
exactly 4.2 s, and for both a 400x300 and a 2000x500 source image the
canvas is 1280x720. -/
theorem c1_witness :
    ((1 : ℚ)/10 ≤ 21/5) ∧
    (scene_clip ⟨400, 300⟩ ⟨21/5⟩).duration = 21/5 ∧
    (scene_clip ⟨400, 300⟩ ⟨21/5⟩).width = 1280 ∧
    (scene_clip ⟨400, 300⟩ ⟨21/5⟩).height = 720 ∧
    (scene_clip ⟨2000, 500⟩ ⟨21/5⟩).width = 1280 ∧
    (scene_clip ⟨2000, 500⟩ ⟨21/5⟩).height = 720 :=
  ⟨by norm_num,
   (c1_clip_duration_and_canvas ⟨400, 300⟩ ⟨21/5⟩).1 (by norm_num),
   (c1_clip_duration_and_canvas ⟨400, 300⟩ ⟨21/5⟩).2.2.1,
   (c1_clip_duration_and_canvas ⟨400, 300⟩ ⟨21/5⟩).2.2.2,
   (c1_clip_duration_and_canvas ⟨2000, 500⟩ ⟨21/5⟩).2.2.1,
   (c1_clip_duration_and_canvas ⟨2000, 500⟩ ⟨21/5⟩).2.2.2⟩

/-- C10: every scene clip built by the pipeline has duration at least 0.1
seconds, and when the narration duration is below 0.1 s the clip duration
is exactly 0.1 s rather than the narration duration. -/
theorem c10_min_duration (img : ImageFileData) (a : AudioFileClip) :
    (1 : ℚ)/10 ≤ (scene_clip img a).duration ∧
    (a.duration < 1/10 → (scene_clip img a).duration = 1/10) := by
  constructor
  · rw [scene_clip_duration]
    exact le_max_right _ _
  · intro h
    rw [scene_clip_duration]
    exact max_eq_right h.le

/-- C10 witness: a narration of 0.05 s yields a clip of exactly 0.1 s. -/
theorem c10_witness :
    ((1 : ℚ)/20 < 1/10) ∧ (scene_clip ⟨640, 480⟩ ⟨1/20⟩).duration = 1/10 :=
  ⟨by norm_num, (c10_min_duration ⟨640, 480⟩ ⟨1/20⟩).2 (by norm_num)⟩

theorem pySplitWs_take6_le (l : List (List Char))
    (hwf : ∀ w ∈ l, w ≠ [] ∧ ∀ ch ∈ w, isSpace ch = false) :
    (pySplitWs (joinSpace (l.take 6))).length ≤ 6 := by
  rw [pySplitWs_joinSpace (l.take 6) (fun w hw => hwf w (List.take_subset 6 l hw))]
  rw [List.length_take]
  exact min_le_left _ _

/-- C2 counterexample: with empty scene text and the seven-word fallback,
safe_keyword_text returns the fallback verbatim, a phrase of seven words,
refuting the claim that the result never has more than six words. -/
theorem c2_counterexample :
    wordCount (safe_keyword_text [] ("one two three four five six seven".toList)) = 7 ∧
    ¬ wordCount (safe_keyword_text [] ("one two three four five six seven".toList)) ≤ 6 := by
  constructor <;> decide

/-- C2 (amended): when the cleaned scene text has fewer than two words and
the fallback is non-empty, safe_keyword_text returns the fallback
verbatim (which may exceed six words); in every other case (at least two
cleaned words, or an empty fallback) the returned phrase has at most six
words. -/
theorem c2_keyword_six_words (text fallback : List Char) :
    ((cleanWords text).length < 2 → fallback ≠ [] →
      safe_keyword_text text fallback = fallback) ∧
    (2 ≤ (cleanWords text).length ∨ fallback = [] →
      wordCount (safe_keyword_text text fallback) ≤ 6) := by
  constructor
  · intro h1 h2
    unfold safe_keyword_text
    rw [if_pos ⟨h1, h2⟩]
  · intro h
    unfold safe_keyword_text wordCount
    rcases h with h | h
    · rw [if_neg (fun hx => absurd h (by omega))]
      rw [if_pos (show cleanWords text ≠ [] from fun he => by rw [he] at h; simp at h)]
      exact pySplitWs_take6_le (cleanWords text) (pySplitWs_wf _)
    · subst h
      rw [if_neg (fun hx => hx.2 rfl)]
      by_cases hw : cleanWords text ≠ []
      · rw [if_pos hw]
        exact pySplitWs_take6_le (cleanWords text) (pySplitWs_wf _)
      · rw [if_neg hw, if_neg (fun hx : ([] : List Char) ≠ [] => hx rfl)]
        decide

/-- C2 witness: a short scene text with a two-word fallback returns the
fallback verbatim, and a seven-word scene text with an empty fallback is
cut to six words. -/
theorem c2_witness :
    ((cleanWords []).length < 2) ∧
    safe_keyword_text [] ("topic words".toList) = "topic words".toList ∧
    wordCount (safe_keyword_text
      ("alpha beta gamma delta epsilon zeta eta".toList) []) ≤ 6 :=
  ⟨by decide,
   (c2_keyword_six_words [] _).1 (by decide) (by decide),
   (c2_keyword_six_words _ []).2 (Or.inr rfl)⟩

/-- C4: for every script whose trimmed text contains a blank-line
(double-newline) separator, split_into_scenes returns exactly the
blank-line-delimited parts of the trimmed script, each trimmed, with
empty parts dropped, in the original order. -/
theorem c4_blank_line_split (script : List Char)
    (h : hasDoubleNewline (pyStrip script) = true) :
    split_into_scenes script =
      ((splitSep (pyStrip script)).map pyStrip).filter (fun p => !p.isEmpty) := by
  have hne : (((splitSep (pyStrip script)).map pyStrip).filter
      (fun p => !p.isEmpty)).isEmpty = false := by
    cases hp : pyStrip script with
    | nil => rw [hp] at h; simp [hasDoubleNewline] at h
    | cons c rest =>
      have hc : isSpace c = false := pyStrip_head_not_space script c rest hp
      have hcn : ¬ c = '\n' := by
        intro he
        rw [he] at hc
        simp [isSpace] at hc
      obtain ⟨p, ps, hsplit⟩ := splitSep_cons_ne c rest hcn
      rw [hsplit, List.map_cons, List.filter_cons]
      rw [if_pos (by simp [isEmpty_false_of_ne_nil (pyStrip_cons_ne_nil c p hc)])]
      rfl
  unfold split_into_scenes
  rw [if_pos h, if_neg (by simp [hne])]

/-- C4 witness: a script with one blank-line separator and padded parts is
split into the two trimmed parts. -/
theorem c4_witness :
    hasDoubleNewline (pyStrip (" A one.\n\n B two. ".toList)) = true ∧
    split_into_scenes (" A one.\n\n B two. ".toList) =
      ((splitSep (pyStrip (" A one.\n\n B two. ".toList))).map pyStrip).filter
        (fun p => !p.isEmpty) :=
  ⟨by decide, c4_blank_line_split (" A one.\n\n B two. ".toList) (by decide)⟩

/-- C5: for every script whose trimmed text has no blank-line separator
but at least one sentence, split_into_scenes returns the sentence list
grouped into consecutive chunks, each chunk joined with single spaces,
where the chunks concatenate back to exactly the sentence list in order,
no chunk is empty, every chunk has at most three sentences, and every
non-last chunk has exactly three. -/
theorem c5_sentence_chunks (script : List Char)
    (h1 : hasDoubleNewline (pyStrip script) = false)
    (h2 : sentencesOf (pyStrip script) ≠ []) :
    split_into_scenes script =
      (chunks3 (sentencesOf (pyStrip script))).map joinSpace ∧
    (chunks3 (sentencesOf (pyStrip script))).flatten = sentencesOf (pyStrip script) ∧
    (∀ c ∈ chunks3 (sentencesOf (pyStrip script)), c ≠ [] ∧ c.length ≤ 3) ∧
    (∀ c ∈ (chunks3 (sentencesOf (pyStrip script))).dropLast, c.length = 3) := by
  refine ⟨?_, chunks3_join _, fun c hc => chunks3_props _ c hc,
    fun c hc => chunks3_dropLast _ c hc⟩
  have hloop : chunkLoop [] (sentencesOf (pyStrip script)) =
      (chunks3 (sentencesOf (pyStrip script))).map joinSpace := by
    have := chunkLoop_eq_chunks3 (sentencesOf (pyStrip script)) [] (by simp)
    simpa using this
  have hmap : ((chunks3 (sentencesOf (pyStrip script))).map joinSpace).isEmpty = false := by
    cases hs : sentencesOf (pyStrip script) with
    | nil => exact absurd hs h2
    | cons v vs =>
      apply isEmpty_false_of_ne_nil
      intro hmap0
      exact absurd (List.map_eq_nil_iff.mp hmap0) (chunks3_ne_nil v vs)
  unfold split_into_scenes
  rw [if_neg (by simp [h1])]
  unfold sentence_scenes
  rw [hloop, if_neg (by simp [hmap])]

/-- C5 witness: a four-sentence script with no blank line is chunked into
a three-sentence scene followed by a one-sentence scene. -/
theorem c5_witness :
    hasDoubleNewline (pyStrip ("One. Two. Three. Four.".toList)) = false ∧
    sentencesOf (pyStrip ("One. Two. Three. Four.".toList)) ≠ [] ∧
    split_into_scenes ("One. Two. Three. Four.".toList) =
      (chunks3 (sentencesOf (pyStrip ("One. Two. Three. Four.".toList)))).map joinSpace :=
  ⟨by decide, by decide,
   (c5_sentence_chunks ("One. Two. Three. Four.".toList) (by decide) (by decide)).1⟩

/-- C7: the placeholder renderer is total and, for every wrapping and
text-measuring behaviour of the imaging library and every caption text
(including texts longer than 400 characters), produces an image at
exactly the requested 1280x720 canvas size with the drawn caption
truncated to at most 400 characters. -/
theorem c7_placeholder_size (wrapFn : List Char → List (List Char))
    (tsFn : List Char → Nat × Nat) (text : List Char) :
    (make_placeholder_image wrapFn tsFn text (1280, 720)).width = 1280 ∧
    (make_placeholder_image wrapFn tsFn text (1280, 720)).height = 720 ∧
    (make_placeholder_image wrapFn tsFn text (1280, 720)).caption.length ≤ 400 := by
  refine ⟨rfl, rfl, ?_⟩
  show ((joinNewline (wrapFn text)).take 400).length ≤ 400
  rw [List.length_take]
  exact min_le_left _ _

/-- C9: for the empty script and every whitespace-only script,
split_into_scenes returns a single-element list whose only element is the
empty string. -/
theorem c9_whitespace_script (script : List Char) (h : script.all isSpace = true) :
    split_into_scenes script = [[]] := by
  have hs : pyStrip script = [] := pyStrip_all_space script h
  unfold split_into_scenes
  rw [hs]
  decide

/-- C9 witness: the empty script and a whitespace-only script both yield
the single empty scene. -/
theorem c9_witness :
    (([] : List Char).all isSpace = true) ∧
    ([' ', '\n', '\t'].all isSpace = true) ∧
    split_into_scenes [] = [[]] ∧
    split_into_scenes [' ', '\n', '\t'] = [[]] :=
  ⟨by decide, by decide, c9_whitespace_script [] (by decide),
   c9_whitespace_script [' ', '\n', '\t'] (by decide)⟩
